import Mathlib

/-!
Verification of the lazabot coordination plane against its specification.

Each definition is a shallow embedding of the Rust function named in its doc
comment (paths relative to src/lazabot/src). Stateful code is modelled by
explicit state passing or by a step function on a state type; fallible code
returns Option or Except; machine integers are Nat (u16/u64 values are small
here and no arithmetic overflows in the modelled paths).
-/

namespace Lazabot

/-! ## Monitor run loop (core/monitor.rs, `MonitorTask::run`, lines 132-171)

The loop keeps `last_availability : Option<bool>` (initially `None`).  After a
successful availability check returning `a`, it emits an event carrying
`is_available = a` iff `last_availability != Some(a)`, and then sets
`last_availability = Some(a)`.  Failed checks emit nothing and leave the state
unchanged, so a run whose successful checks yield the list `as` is modelled by
folding over `as`. -/

/-- Emission trace of the run loop: given the current `last_availability` and
the remaining availability observations, the list of `is_available` payloads of
the emitted events, in order (core/monitor.rs lines 147-165). -/
def monitorEmit : Option Bool → List Bool → List Bool
  | _, [] => []
  | last, a :: rest =>
    if last = some a then monitorEmit last rest
    else a :: monitorEmit (some a) rest

/-- Same trace with 1-based observation indices attached: the pairs
`(i, is_available)` of the events emitted by the run loop. -/
def monitorEmitIdx : Option Bool → Nat → List Bool → List (Nat × Bool)
  | _, _, [] => []
  | last, i, a :: rest =>
    if last = some a then monitorEmitIdx last (i + 1) rest
    else (i, a) :: monitorEmitIdx (some a) (i + 1) rest

/-- Emission trace prescribed by the claim wording: an event at exactly those
indices `i` where `Aᵢ` differs from `Aᵢ₋₁`, carrying `is_available = Aᵢ`.
`prev` is the previous availability value, with `A₀` taken as `false`. -/
def claimEmitIdx : Bool → Nat → List Bool → List (Nat × Bool)
  | _, _, [] => []
  | prev, i, a :: rest =>
    if a = prev then claimEmitIdx a (i + 1) rest
    else (i, a) :: claimEmitIdx a (i + 1) rest

/-- Emission trace of the amended claim: the first observation always emits an
event (the code starts from `None`, which differs from both `Some(true)` and
`Some(false)`), and afterwards an event is emitted exactly when `Aᵢ ≠ Aᵢ₋₁`. -/
def amendedEmitIdx : List Bool → List (Nat × Bool)
  | [] => []
  | a :: rest => (1, a) :: claimEmitIdx a 2 rest

/-! ## Proxy pool (proxy/manager.rs, `ProxyManager`) -/

/-- Proxy endpoint (api/client.rs lines 9-15). -/
structure ProxyInfo where
  host : String
  port : Nat
  username : Option String := none
  password : Option String := none
deriving DecidableEq, Repr

/-- Proxy identifier used as the health-map key: `format!("{}:{}", host, port)`
(proxy/manager.rs line 93). -/
def proxyId (p : ProxyInfo) : String :=
  p.host ++ ":" ++ toString p.port

/-- State of a `ProxyManager`: the immutable proxy list, the atomic cursor and
the health map (proxy/manager.rs lines 10-20).  The `HashMap<String, bool>` is
modelled as an association list. -/
structure ProxyPoolState where
  proxies : List ProxyInfo
  currentIndex : Nat
  health : List (String × Bool)
deriving DecidableEq, Repr

/-- Health lookup `status.get(&proxy_id).copied().unwrap_or(false)`
(proxy/manager.rs line 98). -/
def healthLookup (health : List (String × Bool)) (id : String) : Bool :=
  match health.find? (fun kv => kv.1 == id) with
  | some kv => kv.2
  | none => false

/-- Scan loop of `get_next_proxy` (proxy/manager.rs lines 86-105): while
attempts remain, post-increment the cursor modulo the pool size, and return the
indexed proxy if its health bit is true.  The cursor advances on unhealthy
probes as well. -/
def getNextProxyLoop (s : ProxyPoolState) : Nat → Option ProxyInfo × ProxyPoolState
  | 0 => (none, s)
  | n + 1 =>
    let idx := s.currentIndex % s.proxies.length
    match s.proxies[idx]? with
    | none => (none, s)
    | some p =>
      let s' := { s with currentIndex := s.currentIndex + 1 }
      if healthLookup s.health (proxyId p) then (some p, s')
      else getNextProxyLoop s' n

/-- `ProxyManager::get_next_proxy` (proxy/manager.rs lines 81-109): `None` on an
empty pool, otherwise scan forward at most pool-size steps. -/
def getNextProxy (s : ProxyPoolState) : Option ProxyInfo × ProxyPoolState :=
  if s.proxies.length = 0 then (none, s)
  else getNextProxyLoop s s.proxies.length

/-- Results of `n` successive `get_next_proxy` calls, in call order, together
with the final pool state. -/
def runNextCalls (s : ProxyPoolState) : Nat → List (Option ProxyInfo) × ProxyPoolState
  | 0 => ([], s)
  | n + 1 =>
    let r := getNextProxy s
    let rest := runNextCalls r.2 n
    (r.1 :: rest.1, rest.2)

/-- Proxy A:1 of the concrete scenario. -/
def proxyA : ProxyInfo := { host := "A", port := 1 }

/-- Proxy B:2 of the concrete scenario. -/
def proxyB : ProxyInfo := { host := "B", port := 2 }

/-- Proxy C:3 of the concrete scenario. -/
def proxyC : ProxyInfo := { host := "C", port := 3 }

/-- Pool [A:1, B:2, C:3] with B:2 marked unhealthy and the others healthy, the
cursor at its initial value 0 (construction initialises every health bit to
true, proxy/manager.rs lines 62-69, then `set_proxy_health` flips B:2). -/
def scenarioPoolB : ProxyPoolState :=
  { proxies := [proxyA, proxyB, proxyC]
    currentIndex := 0
    health := [(proxyId proxyA, true), (proxyId proxyB, false), (proxyId proxyC, true)] }

/-! ## Theorems for C1 and C2 -/

/-- Helper: once `last_availability` holds a value, the run loop's emission
trace coincides with the claim-style trace that compares with the previous
observation. -/
theorem monitorEmitIdx_some (prev : Bool) :
    ∀ (as : List Bool) (i : Nat),
      monitorEmitIdx (some prev) i as = claimEmitIdx prev i as := by
  intro as
  induction as generalizing prev with
  | nil => intro i; rfl
  | cons a rest ih =>
    intro i
    by_cases h : a = prev
    · subst h
      simp [monitorEmitIdx, claimEmitIdx, ih]
    · have h' : some prev ≠ some a := by simpa using (Ne.symm h)
      simp [monitorEmitIdx, claimEmitIdx, h, h', ih]

/-- C1 counterexample: on the availability sequence `[false]` the run loop
emits one event (carrying `is_available = false`), whereas the claim prescribes
no event for a first observation of unavailable. -/
theorem C1_counterexample :
    monitorEmitIdx none 1 [false] ≠ claimEmitIdx false 1 [false] := by
  decide

/-- C1 (amended): the run loop emits events exactly at the indices where the
observed availability differs from the previously observed value, except that
the first successful observation always emits an event (the initial state is
`None`, not `Some(false)`); every emitted event carries `is_available = Aᵢ`. -/
theorem C1_monitor_events (as : List Bool) :
    monitorEmitIdx none 1 as = amendedEmitIdx as := by
  cases as with
  | nil => rfl
  | cons a rest =>
    simp [monitorEmitIdx, amendedEmitIdx, monitorEmitIdx_some]

/-- C2 counterexample: with B:2 unhealthy, six successive `next()` calls return
[A:1, C:3, A:1, C:3, A:1, C:3] — not [A:1, C:3, A:1, C:3, A:1, A:1] as the
claim states for the sixth call. -/
theorem C2_counterexample :
    (runNextCalls scenarioPoolB 6).1 ≠
      [some proxyA, some proxyC, some proxyA, some proxyC, some proxyA, some proxyA] := by
  decide

/-- C2 (amended): with B:2 unhealthy, five successive `next()` calls return
[A:1, C:3, A:1, C:3, A:1], and a sixth call returns C:3 (the shared cursor also
advances on unhealthy probes, so after five calls it points at B:2, which is
skipped in favour of C:3). -/
theorem C2_next_calls :
    (runNextCalls scenarioPoolB 6).1 =
      [some proxyA, some proxyC, some proxyA, some proxyC, some proxyA, some proxyC] := by
  decide

/-! ## Proxy file parsing (proxy/manager.rs, `ProxyManager::parse_proxies`,
lines 176-219)

Rust strings are modelled as lists of characters (kernel-evaluable, unlike
Lean's opaque `String` operations); `String.mk` rebuilds the `String` fields of
`ProxyInfo` from them. -/

/-- Decidable equality for `Except`, needed to evaluate parse results. -/
instance {ε α : Type} [DecidableEq ε] [DecidableEq α] : DecidableEq (Except ε α) := fun a b =>
  match a, b with
  | .ok x, .ok y =>
    if h : x = y then isTrue (by rw [h]) else isFalse (fun hh => h (Except.ok.inj hh))
  | .ok _, .error _ => isFalse (fun hh => Except.noConfusion hh)
  | .error _, .ok _ => isFalse (fun hh => Except.noConfusion hh)
  | .error x, .error y =>
    if h : x = y then isTrue (by rw [h]) else isFalse (fun hh => h (Except.error.inj hh))

/-- Whitespace test of Rust's `char::is_whitespace`, used by `str::trim`: the
Unicode White_Space property — U+0009..U+000D (tab, LF, VT, FF, CR), space,
NEL, NBSP, U+1680, U+2000..U+200A, the line and paragraph separators, U+202F,
U+205F and U+3000. -/
def isWs (c : Char) : Bool :=
  (0x09 ≤ c.toNat && c.toNat ≤ 0x0D) || c.toNat = 0x20 || c.toNat = 0x85 ||
  c.toNat = 0xA0 || c.toNat = 0x1680 || (0x2000 ≤ c.toNat && c.toNat ≤ 0x200A) ||
  c.toNat = 0x2028 || c.toNat = 0x2029 || c.toNat = 0x202F || c.toNat = 0x205F ||
  c.toNat = 0x3000

/-- `line.trim()`: strip leading and trailing whitespace. -/
def trimChars (l : List Char) : List Char :=
  ((l.dropWhile isWs).reverse.dropWhile isWs).reverse

/-- `line.starts_with('#')` (proxy/manager.rs line 183). -/
def startsWithHash : List Char → Bool
  | '#' :: _ => true
  | _ => false

/-- `line.split(':')` (proxy/manager.rs line 188): split on every colon,
keeping empty fields. -/
def splitColons : List Char → List (List Char)
  | [] => [[]]
  | c :: rest =>
    if c = ':' then [] :: splitColons rest
    else
      match splitColons rest with
      | [] => [[c]]
      | g :: gs => (c :: g) :: gs

/-- Value of an ASCII digit, `None` for any other character. -/
def digitVal (c : Char) : Option Nat :=
  if '0' ≤ c ∧ c ≤ '9' then some (c.toNat - '0'.toNat) else none

/-- Digit-accumulation loop of integer parsing. -/
def parseDigitsAux (acc : Nat) : List Char → Option Nat
  | [] => some acc
  | c :: rest =>
    match digitVal c with
    | some d => parseDigitsAux (acc * 10 + d) rest
    | none => none

/-- `parts[1].parse::<u16>()` (proxy/manager.rs lines 194-196 and 203-205): an
optional leading `+`, then one or more ASCII digits, value at most 65535. -/
def parsePortU16 (s : List Char) : Option Nat :=
  let t := match s with
    | '+' :: rest => rest
    | _ => s
  match t with
  | [] => none
  | _ =>
    match parseDigitsAux 0 t with
    | some n => if n ≤ 65535 then some n else none
    | none => none

/-- Per-line body of the `parse_proxies` loop (proxy/manager.rs lines 179-215):
`some none` when the line is skipped (empty, `#` comment, or a field count
other than 2 and 4, which is logged and skipped), `some (some p)` when the line
parses to proxy `p`, and `none` when the line has 2 or 4 fields but an
unparsable port — the case the source propagates with `?` as an error of the
whole function. -/
def parseLine (line : List Char) : Option (Option ProxyInfo) :=
  let l := trimChars line
  if l.isEmpty || startsWithHash l then some none
  else
    match splitColons l with
    | [host, portStr] =>
      match parsePortU16 portStr with
      | some port => some (some ⟨String.mk host, port, none, none⟩)
      | none => none
    | [host, portStr, user, pass] =>
      match parsePortU16 portStr with
      | some port => some (some ⟨String.mk host, port, some (String.mk user), some (String.mk pass)⟩)
      | none => none
    | _ => some none

/-- `ProxyManager::parse_proxies` over the list of lines of the file content
(the source iterates `content.lines()`): skipped lines contribute nothing,
parsed lines are pushed in order, and a port-parse failure aborts the whole
function with an error. -/
def parseProxies : List (List Char) → Except Unit (List ProxyInfo)
  | [] => .ok []
  | line :: rest =>
    match parseLine line with
    | some none => parseProxies rest
    | some (some p) => (parseProxies rest).map (fun ps => p :: ps)
    | none => .error ()

/-- C6 counterexample: on the single line `127.0.0.1:notaport` — a line with
two colon-separated fields and an unparsable port — `parse_proxies` fails as a
whole instead of skipping the line. -/
theorem C6_counterexample :
    parseProxies ["127.0.0.1:notaport".data] = .error () := by
  decide

/-- C6 (amended): empty lines and `#` comment lines are ignored and lines whose
colon-split field count is neither 2 nor 4 are logged and skipped, the
resulting pool containing exactly the proxies of the well-formed lines in
order; but a line with 2 or 4 fields and an unparsable port number makes the
whole parse fail, so parsing succeeds iff no such line is present. -/
theorem C6_parse_proxies (lines : List (List Char)) :
    ((∀ line ∈ lines, parseLine line ≠ none) →
      parseProxies lines = .ok (lines.filterMap (fun l => (parseLine l).join))) ∧
    ((∃ line ∈ lines, parseLine line = none) → parseProxies lines = .error ()) := by
  induction lines with
  | nil =>
    refine ⟨fun _ => rfl, ?_⟩
    rintro ⟨l, hl, _⟩
    simp at hl
  | cons line rest ih =>
    constructor
    · intro hall
      have h1 := hall line (by simp)
      have hrest := ih.1 (fun l hl => hall l (by simp [hl]))
      rcases hcl : parseLine line with _ | _ | p
      · exact absurd hcl h1
      · simp only [parseProxies, hcl, List.filterMap_cons, Option.join, Option.bind]
        exact hrest
      · simp only [parseProxies, hcl, List.filterMap_cons, Option.join, Option.bind]
        rw [hrest]
        rfl
    · rintro ⟨bad, hmem, hbad⟩
      rcases List.mem_cons.mp hmem with rfl | hmem'
      · simp [parseProxies, hbad]
      · have hrest := ih.2 ⟨bad, hmem', hbad⟩
        rcases hcl : parseLine line with _ | _ | p <;>
          simp [parseProxies, hcl, hrest, Except.map]

/-- C6 witness: the concrete file of the spec's scenario 8 — two plain entries,
a comment, an authenticated entry and a one-field malformed line — parses to
exactly the three proxies of the well-formed lines, in order. -/
theorem C6_witness :
    parseProxies ["127.0.0.1:8080".data, "# comment".data, "192.168.1.1:3128".data,
        "10.0.0.1:8080:user:pass".data, "malformed".data] =
      .ok [⟨"127.0.0.1", 8080, none, none⟩, ⟨"192.168.1.1", 3128, none, none⟩,
        ⟨"10.0.0.1", 8080, some "user", some "pass"⟩] := by
  have h := (C6_parse_proxies ["127.0.0.1:8080".data, "# comment".data, "192.168.1.1:3128".data,
    "10.0.0.1:8080:user:pass".data, "malformed".data]).1 (by decide)
  rw [h]
  decide

/-! ## HTTP retry loop (api/client.rs, `ApiClient::execute_with_retry`,
lines 141-189) -/

/-- Outcome of one send attempt, as seen by the retry loop: `request.send()`
succeeds and `response.bytes()` is read (`ok`, with the HTTP status and body),
the send fails with a transport error (`sendErr`), or the body read fails
(`bodyErr`). -/
inductive Attempt where
  | ok (status : Nat) (body : List Nat)
  | sendErr
  | bodyErr
deriving DecidableEq, Repr

/-- Attempt outcome test: true exactly on successfully read responses. -/
def Attempt.isOk : Attempt → Bool
  | .ok _ _ => true
  | _ => false

/-- Retry policy (api/client.rs lines 53-59).  `backoff_multiplier : f64` is
modelled as a rational; the delays of the modelled paths are small integers on
which `f64` arithmetic is exact. -/
structure RetryConfig where
  maxRetries : Nat
  baseDelayMs : Nat
  maxDelayMs : Nat
  backoffMultiplier : ℚ
deriving DecidableEq, Repr

/-- Delay update between attempts (api/client.rs lines 180-183):
`delay = min((delay as f64 * multiplier) as u64, max_delay_ms)`.  The `as u64`
cast truncates toward zero, hence the floor. -/
def nextDelay (cfg : RetryConfig) (delay : Nat) : Nat :=
  min ⌊(delay : ℚ) * cfg.backoffMultiplier⌋₊ cfg.maxDelayMs

/-- The `for attempt in 0..=max_retries` loop (api/client.rs lines 148-185):
given the outcome of each attempt index, returns the final result (the first
successfully read response, `none` after exhaustion), the number of attempts
performed and the list of sleeps performed between attempts, in order.
`remaining` counts the attempts still allowed after the current one. -/
def retryLoop (out : Nat → Attempt) (cfg : RetryConfig) :
    Nat → Nat → Nat → Option (Nat × List Nat) × Nat × List Nat
  | attempt, remaining, delay =>
    match out attempt with
    | .ok s b => (some (s, b), 1, [])
    | .sendErr | .bodyErr =>
      match remaining with
      | 0 => (none, 1, [])
      | r + 1 =>
        let res := retryLoop out cfg (attempt + 1) r (nextDelay cfg delay)
        (res.1, res.2.1 + 1, delay :: res.2.2)

/-- `ApiClient::execute_with_retry`: run the attempt loop from attempt 0 with
`max_retries` retries remaining and the base delay. -/
def executeWithRetry (cfg : RetryConfig) (out : Nat → Attempt) :
    Option (Nat × List Nat) × Nat × List Nat :=
  retryLoop out cfg 0 cfg.maxRetries cfg.baseDelayMs

/-- The sleep performed after the j-th failed attempt: the base delay with the
capped-multiplier update iterated j times. -/
def delaySeq (cfg : RetryConfig) (j : Nat) : Nat :=
  (nextDelay cfg)^[j] cfg.baseDelayMs

/-- Helper: the loop performs at least one attempt. -/
theorem retryLoop_attempts_pos (out : Nat → Attempt) (cfg : RetryConfig) :
    ∀ remaining attempt delay, 1 ≤ (retryLoop out cfg attempt remaining delay).2.1 := by
  intro remaining
  induction remaining with
  | zero =>
    intro attempt delay
    cases hout : out attempt <;> simp [retryLoop, hout]
  | succ r ih =>
    intro attempt delay
    cases hout : out attempt <;> simp [retryLoop, hout]

/-- Helper: the loop performs at most `remaining + 1` attempts. -/
theorem retryLoop_attempts_le (out : Nat → Attempt) (cfg : RetryConfig) :
    ∀ remaining attempt delay,
      (retryLoop out cfg attempt remaining delay).2.1 ≤ remaining + 1 := by
  intro remaining
  induction remaining with
  | zero =>
    intro attempt delay
    cases hout : out attempt <;> simp [retryLoop, hout]
  | succ r ih =>
    intro attempt delay
    cases hout : out attempt <;> simp [retryLoop, hout]
    · have := ih (attempt + 1) (nextDelay cfg delay); omega
    · have := ih (attempt + 1) (nextDelay cfg delay); omega

/-- Helper: the sleeps performed are the delay-update iterates of the entry
delay, one per attempt except the last. -/
theorem retryLoop_sleeps (out : Nat → Attempt) (cfg : RetryConfig) :
    ∀ remaining attempt delay,
      (retryLoop out cfg attempt remaining delay).2.2 =
        (List.range ((retryLoop out cfg attempt remaining delay).2.1 - 1)).map
          (fun j => (nextDelay cfg)^[j] delay) := by
  intro remaining
  induction remaining with
  | zero =>
    intro attempt delay
    cases hout : out attempt <;> simp [retryLoop, hout]
  | succ r ih =>
    intro attempt delay
    cases hout : out attempt with
    | ok s b => simp [retryLoop, hout]
    | sendErr =>
      have hpos := retryLoop_attempts_pos out cfg r (attempt + 1) (nextDelay cfg delay)
      obtain ⟨m, hm⟩ := Nat.exists_eq_add_of_le hpos
      simp only [retryLoop, hout]
      rw [ih (attempt + 1) (nextDelay cfg delay), hm]
      have h1 : 1 + m - 1 = m := by omega
      have h2 : 1 + m + 1 - 1 = m + 1 := by omega
      rw [h1, h2, List.range_succ_eq_map, List.map_cons, List.map_map,
        Function.iterate_zero_apply]
      have hfun : ((fun j => (nextDelay cfg)^[j] delay) ∘ Nat.succ) =
          fun j => (nextDelay cfg)^[j] (nextDelay cfg delay) := by
        funext j
        simp only [Function.comp_apply]
        exact Function.iterate_succ_apply (nextDelay cfg) j delay
      rw [hfun]
    | bodyErr =>
      have hpos := retryLoop_attempts_pos out cfg r (attempt + 1) (nextDelay cfg delay)
      obtain ⟨m, hm⟩ := Nat.exists_eq_add_of_le hpos
      simp only [retryLoop, hout]
      rw [ih (attempt + 1) (nextDelay cfg delay), hm]
      have h1 : 1 + m - 1 = m := by omega
      have h2 : 1 + m + 1 - 1 = m + 1 := by omega
      rw [h1, h2, List.range_succ_eq_map, List.map_cons, List.map_map,
        Function.iterate_zero_apply]
      have hfun : ((fun j => (nextDelay cfg)^[j] delay) ∘ Nat.succ) =
          fun j => (nextDelay cfg)^[j] (nextDelay cfg delay) := by
        funext j
        simp only [Function.comp_apply]
        exact Function.iterate_succ_apply (nextDelay cfg) j delay
      rw [hfun]

/-- Helper: if attempt `attempt + k` is the first successful one and lies
within the budget, the loop returns its response after exactly `k + 1`
attempts. -/
theorem retryLoop_first_ok (out : Nat → Attempt) (cfg : RetryConfig) :
    ∀ remaining attempt delay k s b, k ≤ remaining →
      out (attempt + k) = .ok s b →
      (∀ j, j < k → (out (attempt + j)).isOk = false) →
      (retryLoop out cfg attempt remaining delay).1 = some (s, b) ∧
        (retryLoop out cfg attempt remaining delay).2.1 = k + 1 := by
  intro remaining
  induction remaining with
  | zero =>
    intro attempt delay k s b hk hok _
    have hk0 : k = 0 := Nat.le_zero.mp hk
    subst hk0
    simp only [Nat.add_zero] at hok
    simp [retryLoop, hok]
  | succ r ih =>
    intro attempt delay k s b hk hok hfail
    cases k with
    | zero =>
      simp only [Nat.add_zero] at hok
      simp [retryLoop, hok]
    | succ k' =>
      have hf0 : (out attempt).isOk = false := by
        have := hfail 0 (Nat.succ_pos k')
        simpa using this
      have hok' : out (attempt + 1 + k') = Attempt.ok s b := by
        have h : attempt + 1 + k' = attempt + (k' + 1) := by omega
        rw [h]; exact hok
      have hfail' : ∀ j, j < k' → (out (attempt + 1 + j)).isOk = false := by
        intro j hj
        have h : attempt + 1 + j = attempt + (j + 1) := by omega
        rw [h]; exact hfail (j + 1) (Nat.succ_lt_succ hj)
      have hih := ih (attempt + 1) (nextDelay cfg delay) k' s b (Nat.succ_le_succ_iff.mp hk)
        hok' hfail'
      cases hout : out attempt with
      | ok s' b' => rw [hout] at hf0; simp [Attempt.isOk] at hf0
      | sendErr =>
        simp only [retryLoop, hout]
        exact ⟨hih.1, by rw [hih.2]⟩
      | bodyErr =>
        simp only [retryLoop, hout]
        exact ⟨hih.1, by rw [hih.2]⟩

/-- C4: for every retry policy and every sequence of attempt outcomes, the
client performs at most `max_retries + 1` attempts; the sleeps between failed
attempts are exactly `delay` then `delay = min(delay * multiplier, max_delay)`
starting from the base delay; and an attempt whose response body is read
successfully returns that response immediately — regardless of its HTTP
status, which the loop never inspects — after exactly the failed attempts
before it. -/
theorem C4_retry_backoff (cfg : RetryConfig) (out : Nat → Attempt) :
    (executeWithRetry cfg out).2.1 ≤ cfg.maxRetries + 1 ∧
    (executeWithRetry cfg out).2.2 =
      (List.range ((executeWithRetry cfg out).2.1 - 1)).map (delaySeq cfg) ∧
    (∀ k s b, k ≤ cfg.maxRetries → out k = .ok s b →
      (∀ j, j < k → (out j).isOk = false) →
      (executeWithRetry cfg out).1 = some (s, b) ∧
        (executeWithRetry cfg out).2.1 = k + 1) := by
  refine ⟨retryLoop_attempts_le out cfg cfg.maxRetries 0 cfg.baseDelayMs,
    retryLoop_sleeps out cfg cfg.maxRetries 0 cfg.baseDelayMs, ?_⟩
  intro k s b hk hok hfail
  exact retryLoop_first_ok out cfg cfg.maxRetries 0 cfg.baseDelayMs k s b hk
    (by simpa using hok) (fun j hj => by simpa using hfail j hj)

/-- Concrete retry policy for the C4 witness: the default of
`RetryConfig::default` (api/client.rs lines 61-70). -/
def cfgW : RetryConfig := ⟨3, 1000, 10000, 2⟩

/-- Concrete outcome sequence for the C4 witness: two transport errors, then a
successfully read 503 response (a failure status, which is not retried). -/
def outW : Nat → Attempt := fun k => if k < 2 then .sendErr else .ok 503 [1, 2]

/-- C4 witness: under the default policy with two transport errors followed by
a readable 503 response, the client returns the 503 response after exactly
three attempts. -/
theorem C4_witness :
    (executeWithRetry cfgW outW).1 = some (503, [1, 2]) ∧
    (executeWithRetry cfgW outW).2.1 = 2 + 1 :=
  (C4_retry_backoff cfgW outW).2.2 2 503 [1, 2] (by decide) (by decide) (by decide)

/-! ## Crypto envelope (config/encryption.rs and core/session.rs)

Bytes are `Fin 256`.  The AES-256-GCM cipher of the `aes_gcm` crate is external
to the repository; it is modelled as an abstract AEAD cipher, a pair of
encryption and decryption maps over (nonce, data) satisfying the crate's
documented round-trip contract.  The base64 layer (`general_purpose::STANDARD`
of the `base64` crate) is modelled concretely. -/

/-- A byte. -/
abbrev Byte := Fin 256

/-- The standard base64 alphabet. -/
def b64Alphabet : List Char :=
  ['A', 'B', 'C', 'D', 'E', 'F', 'G', 'H', 'I', 'J', 'K', 'L', 'M',
   'N', 'O', 'P', 'Q', 'R', 'S', 'T', 'U', 'V', 'W', 'X', 'Y', 'Z',
   'a', 'b', 'c', 'd', 'e', 'f', 'g', 'h', 'i', 'j', 'k', 'l', 'm',
   'n', 'o', 'p', 'q', 'r', 's', 't', 'u', 'v', 'w', 'x', 'y', 'z',
   '0', '1', '2', '3', '4', '5', '6', '7', '8', '9', '+', '/']

/-- Character of a sextet value. -/
def b64char (i : Fin 64) : Char :=
  b64Alphabet.getD i.val 'A'

/-- Sextet value of a character, `none` for characters outside the alphabet. -/
def b64index (c : Char) : Option (Fin 64) :=
  let i := b64Alphabet.indexOf c
  if h : i < 64 then some ⟨i, h⟩ else none

theorem b64index_b64char : ∀ i : Fin 64, b64index (b64char i) = some i := by
  decide

theorem b64char_ne_pad : ∀ i : Fin 64, ¬ b64char i = '=' := by
  decide

theorem sextet0_lt (a : Byte) : a.val / 4 < 64 := by
  have := a.isLt; omega

theorem sextet1_lt (a b : Byte) : a.val % 4 * 16 + b.val / 16 < 64 := by
  have := b.isLt; omega

theorem sextet1pad_lt (a : Byte) : a.val % 4 * 16 < 64 := by
  omega

theorem sextet2_lt (b c : Byte) : b.val % 16 * 4 + c.val / 64 < 64 := by
  have := c.isLt; omega

theorem sextet2pad_lt (b : Byte) : b.val % 16 * 4 < 64 := by
  omega

theorem sextet3_lt (c : Byte) : c.val % 64 < 64 := by
  omega

theorem unsextet0_lt (s0 s1 : Fin 64) : s0.val * 4 + s1.val / 16 < 256 := by
  have := s0.isLt; omega

theorem unsextet1_lt (s1 s2 : Fin 64) : s1.val % 16 * 16 + s2.val / 4 < 256 := by
  have := s2.isLt; omega

theorem unsextet2_lt (s2 s3 : Fin 64) : s2.val % 4 * 64 + s3.val < 256 := by
  have := s3.isLt; omega

/-- Base64 encoding: full 3-byte chunks become 4 alphabet characters; a 1- or
2-byte tail is padded with `=`. -/
def b64encode : List Byte → List Char
  | [] => []
  | [a] =>
    [b64char ⟨a.val / 4, sextet0_lt a⟩, b64char ⟨a.val % 4 * 16, sextet1pad_lt a⟩, '=', '=']
  | [a, b] =>
    [b64char ⟨a.val / 4, sextet0_lt a⟩, b64char ⟨a.val % 4 * 16 + b.val / 16, sextet1_lt a b⟩,
     b64char ⟨b.val % 16 * 4, sextet2pad_lt b⟩, '=']
  | a :: b :: c :: rest =>
    b64char ⟨a.val / 4, sextet0_lt a⟩ ::
    b64char ⟨a.val % 4 * 16 + b.val / 16, sextet1_lt a b⟩ ::
    b64char ⟨b.val % 16 * 4 + c.val / 64, sextet2_lt b c⟩ ::
    b64char ⟨c.val % 64, sextet3_lt c⟩ ::
    b64encode rest

/-- Base64 decoding of well-formed input (length a multiple of 4, padding only
at the very end, zero trailing bits in the final partial sextet as required by
the default STANDARD engine configuration); `none` otherwise. -/
def b64decode : List Char → Option (List Byte)
  | [] => some []
  | c0 :: c1 :: c2 :: c3 :: rest =>
    match b64index c0, b64index c1 with
    | some s0, some s1 =>
      if c2 = '=' then
        if c3 = '=' then
          if rest = [] then
            if s1.val % 16 = 0 then
              some [⟨s0.val * 4 + s1.val / 16, unsextet0_lt s0 s1⟩]
            else none
          else none
        else none
      else
        match b64index c2 with
        | some s2 =>
          if c3 = '=' then
            if rest = [] then
              if s2.val % 4 = 0 then
                some [⟨s0.val * 4 + s1.val / 16, unsextet0_lt s0 s1⟩,
                      ⟨s1.val % 16 * 16 + s2.val / 4, unsextet1_lt s1 s2⟩]
              else none
            else none
          else
            match b64index c3 with
            | some s3 =>
              match b64decode rest with
              | some bs =>
                some (⟨s0.val * 4 + s1.val / 16, unsextet0_lt s0 s1⟩ ::
                      ⟨s1.val % 16 * 16 + s2.val / 4, unsextet1_lt s1 s2⟩ ::
                      ⟨s2.val % 4 * 64 + s3.val, unsextet2_lt s2 s3⟩ :: bs)
              | none => none
            | none => none
        | none => none
    | _, _ => none
  | _ => none

/-- Base64 round-trip: decoding an encoded byte list recovers it exactly. -/
theorem b64_roundtrip : ∀ bs : List Byte, b64decode (b64encode bs) = some bs
  | [] => rfl
  | [a] => by
    have ha := a.isLt
    simp only [b64encode, b64decode, b64index_b64char, Nat.mul_mod_left, if_pos rfl]
    simp only [reduceIte, Option.some.injEq, List.cons.injEq, and_true]
    apply Fin.ext
    simp only [Fin.val_mk]
    omega
  | [a, b] => by
    have ha := a.isLt
    have hb := b.isLt
    simp only [b64encode, b64decode, b64index_b64char, b64char_ne_pad, Nat.mul_mod_left,
      if_false, reduceIte, Option.some.injEq, List.cons.injEq, and_true]
    constructor
    · apply Fin.ext; simp only [Fin.val_mk]; omega
    · apply Fin.ext; simp only [Fin.val_mk]; omega
  | a :: b :: c :: rest => by
    have ha := a.isLt
    have hb := b.isLt
    have hc := c.isLt
    have ih := b64_roundtrip rest
    simp only [b64encode, b64decode, b64index_b64char, b64char_ne_pad, if_false, reduceIte, ih,
      Option.some.injEq, List.cons.injEq, and_true]
    refine ⟨?_, ?_, ?_⟩ <;> (apply Fin.ext; simp only [Fin.val_mk]; omega)

/-- Abstract AEAD cipher: encryption of (nonce, plaintext) to ciphertext+tag
and its partial inverse, satisfying the round-trip contract documented for the
external `aes_gcm` crate. -/
structure AeadCipher where
  enc : List Byte → List Byte → List Byte
  dec : List Byte → List Byte → Option (List Byte)
  dec_enc : ∀ n p, dec n (enc n p) = some p

/-- Error kinds of the envelope (config/encryption.rs lines 11-23, restricted
to those reachable from `decrypt`). -/
inductive EnvelopeError
  | base64Error
  | decryptionFailed
deriving DecidableEq, Repr

/-- `EncryptionManager::encrypt` (config/encryption.rs lines 59-79): encrypt
the plaintext under a 12-byte nonce (drawn from `OsRng` in the source, passed
as a parameter here), prepend the nonce and base64-encode.  Plaintext is the
UTF-8 byte content of the Rust `&str` argument. -/
def emEncrypt (c : AeadCipher) (nonceBytes plaintext : List Byte) : List Char :=
  b64encode (nonceBytes ++ c.enc nonceBytes plaintext)

/-- `EncryptionManager::decrypt` (config/encryption.rs lines 82-107):
base64-decode, reject inputs shorter than 12 bytes, split nonce from
ciphertext at byte 12 and decrypt.  The final `String::from_utf8` of the source
is the identity on round-tripped data (the Rust standard library guarantees
`from_utf8(s.as_bytes()) = Ok(s)`), so the model stays at the byte level. -/
def emDecrypt (c : AeadCipher) (encryptedData : List Char) :
    Except EnvelopeError (List Byte) :=
  match b64decode encryptedData with
  | none => .error .base64Error
  | some encryptedBytes =>
    if encryptedBytes.length < 12 then .error .decryptionFailed
    else
      match c.dec (encryptedBytes.take 12) (encryptedBytes.drop 12) with
      | some plaintext => .ok plaintext
      | none => .error .decryptionFailed

/-- C5: for every AEAD cipher, every 12-byte nonce and every plaintext,
decrypting the sealed output of encrypting the plaintext under the same key
returns exactly the plaintext. -/
theorem C5_crypto_roundtrip (c : AeadCipher) (nonceBytes plaintext : List Byte)
    (h : nonceBytes.length = 12) :
    emDecrypt c (emEncrypt c nonceBytes plaintext) = .ok plaintext := by
  have hlen : ¬ (nonceBytes ++ c.enc nonceBytes plaintext).length < 12 := by
    simp [List.length_append, h]
  simp only [emEncrypt, emDecrypt, b64_roundtrip]
  rw [if_neg hlen, ← h, List.take_left, List.drop_left, c.dec_enc]

/-- Concrete cipher instance for the C5 witness. -/
def witnessCipher : AeadCipher where
  enc := fun _ p => p
  dec := fun _ ct => some ct
  dec_enc := fun _ _ => rfl

/-- C5 witness: the round trip evaluated at a concrete cipher, the zero nonce
and the plaintext bytes of "hi". -/
theorem C5_witness :
    emDecrypt witnessCipher (emEncrypt witnessCipher (List.replicate 12 0) [104, 105]) =
      .ok [104, 105] :=
  C5_crypto_roundtrip witnessCipher (List.replicate 12 0) [104, 105] (by decide)

/-- Byte content of the fixed nonce `b"uniqnonce123"` hard-coded by
`SessionManager::encrypt_data` (core/session.rs line 412). -/
def uniqNonceBytes : List Byte :=
  [117, 110, 105, 113, 110, 111, 110, 99, 101, 49, 50, 51]

/-- `SessionManager::encrypt_data` (core/session.rs lines 403-422), the sealing
used by `persist_session`: encrypt under the constant nonce `b"uniqnonce123"`
and prepend it.  No randomness is involved — the source comments this with
"In production, use a random nonce". -/
def sessionEncryptData (c : AeadCipher) (data : List Byte) : List Byte :=
  uniqNonceBytes ++ c.enc uniqNonceBytes data

/-- C3: the 12-byte nonce prefix of every sealed output of the session store is
the constant `b"uniqnonce123"`; in particular any two seal invocations — with
the same or different keys and plaintexts — produce identical nonce prefixes,
contradicting the fresh-random-nonce requirement. -/
theorem C3_fixed_session_nonce (c c' : AeadCipher) (d d' : List Byte) :
    (sessionEncryptData c d).take 12 = uniqNonceBytes ∧
    (sessionEncryptData c d).take 12 = (sessionEncryptData c' d').take 12 := by
  have h : ∀ (c0 : AeadCipher) (d0 : List Byte),
      (sessionEncryptData c0 d0).take 12 = uniqNonceBytes := by
    intro c0 d0
    unfold sessionEncryptData
    have h12 : uniqNonceBytes.length = 12 := by decide
    rw [← h12, List.take_left]
  exact ⟨h c d, by rw [h c d, h c' d']⟩

/-! ## Task executor (tasks/manager.rs, `TaskManager`)

The executor's shared state — shutdown flag, task-id counter, result store — is
a state type, and the store writes that the `submit_task`, `shutdown` and
spawned-worker code paths can perform are a step function over scheduling
events; the nondeterministic interleaving of workers is the choice of event
sequence. -/

/-- `TaskStatus` (tasks/manager.rs lines 16-27). -/
inductive TaskStatus where
  | pending
  | running
  | completed
  | failed
  | cancelled
deriving DecidableEq, Repr

/-- Terminal statuses. -/
def TaskStatus.isTerminal : TaskStatus → Bool
  | .completed | .failed | .cancelled => true
  | _ => false

/-- Progress of a task's spawned worker through its store writes (the program
points of the closure at tasks/manager.rs lines 166-238): `waiting` before the
Running write, `started` after it, `finished` once a terminal status has been
written and the worker has returned — the worker performs no store write after
a terminal one. -/
inductive WorkerPhase where
  | waiting
  | started
  | finished
deriving DecidableEq, Repr

/-- A task's stored result together with its worker's progress. -/
structure TaskEntry where
  status : TaskStatus
  phase : WorkerPhase
deriving DecidableEq, Repr

/-- Executor state (tasks/manager.rs lines 100-115): shutdown flag
(`AtomicBool`), task-id counter (`AtomicU64`, no overflow for the modelled
runs) and the result store (`DashMap<TaskId, TaskResult>` as a map from ids). -/
structure ExecState where
  shutdown : Bool
  counter : Nat
  store : Nat → Option TaskEntry

/-- State of `TaskManager::new` (tasks/manager.rs lines 119-138). -/
def execInit : ExecState :=
  ⟨false, 0, fun _ => none⟩

/-- One `task_store.insert(id, e)`. -/
def storeWrite (st : Nat → Option TaskEntry) (id : Nat) (e : TaskEntry) :
    Nat → Option TaskEntry :=
  fun j => if j = id then some e else st j

/-- A worker store write guarded by the worker's current phase: the write
happens only if the task exists and its worker is at the required phase. -/
def phasedWrite (s : ExecState) (id : Nat) (req : WorkerPhase) (e' : TaskEntry) :
    ExecState :=
  match s.store id with
  | some e => if e.phase = req then { s with store := storeWrite s.store id e' } else s
  | none => s

/-- Scheduling events: a `submit_task` call, the flag-setting step of
`shutdown` (lines 284-289), and the store writes of a spawned worker —
cancellation before running (lines 185-201, enabled only under shutdown), the
Running write (lines 204-206), cancellation during execution (lines 209-217,
enabled only under shutdown), and the Completed and Failed writes
(lines 219-231). -/
inductive ExecOp where
  | submit
  | shutdownSignal
  | cancelBeforeRun (id : Nat)
  | startRun (id : Nat)
  | cancelDuringRun (id : Nat)
  | complete (id : Nat)
  | fail (id : Nat)
deriving DecidableEq, Repr

/-- The state transition of one event. -/
def execStep (s : ExecState) : ExecOp → ExecState
  | .submit =>
    if s.shutdown then s
    else { s with counter := s.counter + 1,
                  store := storeWrite s.store s.counter ⟨.pending, .waiting⟩ }
  | .shutdownSignal => { s with shutdown := true }
  | .cancelBeforeRun id =>
    if s.shutdown then phasedWrite s id .waiting ⟨.cancelled, .finished⟩ else s
  | .startRun id => phasedWrite s id .waiting ⟨.running, .started⟩
  | .cancelDuringRun id =>
    if s.shutdown then phasedWrite s id .started ⟨.cancelled, .finished⟩ else s
  | .complete id => phasedWrite s id .started ⟨.completed, .finished⟩
  | .fail id => phasedWrite s id .started ⟨.failed, .finished⟩

/-- An execution: fold the events over the state. -/
def execRun (s : ExecState) (ops : List ExecOp) : ExecState :=
  ops.foldl execStep s

/-- Return value of `submit_task` (tasks/manager.rs lines 145-150): refused
(`none`) iff the shutdown flag is set, else the freshly allocated task id. -/
def submitResult (s : ExecState) : Option Nat :=
  if s.shutdown then none else some s.counter

/-- Executor invariant: ids at or above the counter are unallocated, and a
stored terminal result belongs to a finished worker. -/
def ExecInv (s : ExecState) : Prop :=
  (∀ i, s.counter ≤ i → s.store i = none) ∧
  (∀ i e, s.store i = some e → e.status.isTerminal = true → e.phase = .finished)

theorem execInit_inv : ExecInv execInit := by
  constructor
  · intro i _
    rfl
  · intro i e h _
    exact Option.noConfusion h

/-- Helper: a write to an already-allocated slot, whose entry is finished
whenever it is terminal, preserves the invariant. -/
theorem storeWrite_inv_of (s : ExecState) (hinv : ExecInv s) (id : Nat) (e : TaskEntry)
    (hid : s.store id ≠ none) (he : e.status.isTerminal = true → e.phase = .finished) :
    ExecInv { s with store := storeWrite s.store id e } := by
  constructor
  · intro i hi
    simp only [storeWrite]
    by_cases hji : i = id
    · subst hji
      exact absurd (hinv.1 i hi) hid
    · simp [hji, hinv.1 i hi]
  · intro i e' hsome hterm
    simp only [storeWrite] at hsome
    by_cases hji : i = id
    · rw [if_pos hji] at hsome
      injection hsome with h
      rw [← h] at hterm ⊢
      exact he hterm
    · rw [if_neg hji] at hsome
      exact hinv.2 i e' hsome hterm

theorem phasedWrite_inv (s : ExecState) (hinv : ExecInv s) (id : Nat) (req : WorkerPhase)
    (e' : TaskEntry) (he : e'.status.isTerminal = true → e'.phase = .finished) :
    ExecInv (phasedWrite s id req e') := by
  cases hstore : s.store id with
  | none => simp only [phasedWrite, hstore]; exact hinv
  | some e =>
    by_cases hph : e.phase = req
    · simp only [phasedWrite, hstore]
      rw [if_pos hph]
      exact storeWrite_inv_of s hinv id e' (by simp [hstore]) he
    · simp only [phasedWrite, hstore]
      rw [if_neg hph]
      exact hinv

theorem execStep_inv (s : ExecState) (op : ExecOp) (hinv : ExecInv s) :
    ExecInv (execStep s op) := by
  cases op with
  | submit =>
    by_cases hsd : s.shutdown
    · simpa [execStep, hsd] using hinv
    · simp only [execStep, hsd, if_false, Bool.false_eq_true]
      constructor
      · intro i hi
        simp only [storeWrite] at *
        have hne : i ≠ s.counter := by omega
        simp [hne, hinv.1 i (by omega)]
      · intro i e hsome hterm
        simp only [storeWrite] at hsome
        by_cases hji : i = s.counter
        · rw [if_pos hji] at hsome
          injection hsome with h
          rw [← h] at hterm
          simp [TaskStatus.isTerminal] at hterm
        · rw [if_neg hji] at hsome
          exact hinv.2 i e hsome hterm
  | shutdownSignal => exact ⟨hinv.1, hinv.2⟩
  | cancelBeforeRun id =>
    by_cases hsd : s.shutdown
    · simp only [execStep, hsd, if_true]
      exact phasedWrite_inv s hinv id _ _ (fun _ => rfl)
    · simpa [execStep, hsd] using hinv
  | startRun id =>
    simp only [execStep]
    exact phasedWrite_inv s hinv id _ _ (by intro h; simp [TaskStatus.isTerminal] at h)
  | cancelDuringRun id =>
    by_cases hsd : s.shutdown
    · simp only [execStep, hsd, if_true]
      exact phasedWrite_inv s hinv id _ _ (fun _ => rfl)
    · simpa [execStep, hsd] using hinv
  | complete id =>
    simp only [execStep]
    exact phasedWrite_inv s hinv id _ _ (fun _ => rfl)
  | fail id =>
    simp only [execStep]
    exact phasedWrite_inv s hinv id _ _ (fun _ => rfl)

theorem execRun_inv (ops : List ExecOp) : ∀ s, ExecInv s → ExecInv (execRun s ops) := by
  induction ops with
  | nil => intro s h; exact h
  | cons op rest ih =>
    intro s h
    exact ih (execStep s op) (execStep_inv s op h)

/-- Helper: the phased writes never touch a slot holding a terminal result (its
worker is finished, and the required phase is waiting or started). -/
theorem phasedWrite_stable (s : ExecState) (hinv : ExecInv s) (id tid : Nat)
    (req : WorkerPhase) (e' e : TaskEntry) (hobs : s.store tid = some e)
    (hterm : e.status.isTerminal = true) (hreq : req ≠ .finished) :
    (phasedWrite s id req e').store tid = some e := by
  cases hstore : s.store id with
  | none => simp only [phasedWrite, hstore]; exact hobs
  | some e2 =>
    by_cases hph : e2.phase = req
    · simp only [phasedWrite, hstore]
      rw [if_pos hph]
      simp only [storeWrite]
      by_cases hji : tid = id
      · exfalso
        rw [← hji, hobs] at hstore
        injection hstore with h
        have hfin := hinv.2 tid e hobs hterm
        rw [← h, hfin] at hph
        exact hreq hph.symm
      · simp [hji, hobs]
    · simp only [phasedWrite, hstore]
      rw [if_neg hph]
      exact hobs

theorem execStep_stable (s : ExecState) (op : ExecOp) (hinv : ExecInv s)
    (tid : Nat) (e : TaskEntry) (hobs : s.store tid = some e)
    (hterm : e.status.isTerminal = true) :
    (execStep s op).store tid = some e := by
  cases op with
  | submit =>
    by_cases hsd : s.shutdown
    · simpa [execStep, hsd] using hobs
    · simp only [execStep, hsd, if_false, Bool.false_eq_true, storeWrite]
      have htid : tid ≠ s.counter := by
        intro hh
        rw [hinv.1 tid (by omega)] at hobs
        exact Option.noConfusion hobs
      simp [htid, hobs]
  | shutdownSignal => simpa [execStep] using hobs
  | cancelBeforeRun id =>
    by_cases hsd : s.shutdown
    · simp only [execStep, hsd, if_true]
      exact phasedWrite_stable s hinv id tid _ _ e hobs hterm (by simp)
    · simpa [execStep, hsd] using hobs
  | startRun id =>
    simp only [execStep]
    exact phasedWrite_stable s hinv id tid _ _ e hobs hterm (by simp)
  | cancelDuringRun id =>
    by_cases hsd : s.shutdown
    · simp only [execStep, hsd, if_true]
      exact phasedWrite_stable s hinv id tid _ _ e hobs hterm (by simp)
    · simpa [execStep, hsd] using hobs
  | complete id =>
    simp only [execStep]
    exact phasedWrite_stable s hinv id tid _ _ e hobs hterm (by simp)
  | fail id =>
    simp only [execStep]
    exact phasedWrite_stable s hinv id tid _ _ e hobs hterm (by simp)

theorem execRun_stable (ops : List ExecOp) : ∀ s, ExecInv s →
    ∀ tid e, s.store tid = some e → e.status.isTerminal = true →
      (execRun s ops).store tid = some e := by
  induction ops with
  | nil =>
    intro s _ tid e hobs _
    exact hobs
  | cons op rest ih =>
    intro s hinv tid e hobs hterm
    exact ih (execStep s op) (execStep_inv s op hinv) tid e
      (execStep_stable s op hinv tid e hobs hterm) hterm

theorem phasedWrite_shutdown (s : ExecState) (id : Nat) (req : WorkerPhase)
    (e' : TaskEntry) : (phasedWrite s id req e').shutdown = s.shutdown := by
  cases hstore : s.store id with
  | none => simp only [phasedWrite, hstore]
  | some e =>
    by_cases hph : e.phase = req <;> simp [phasedWrite, hstore, hph]

theorem execStep_shutdown_mono (s : ExecState) (op : ExecOp) (h : s.shutdown = true) :
    (execStep s op).shutdown = true := by
  cases op <;> simp [execStep, phasedWrite_shutdown, h]

theorem execRun_shutdown_mono (ops : List ExecOp) : ∀ s, s.shutdown = true →
    (execRun s ops).shutdown = true := by
  induction ops with
  | nil => intro s h; exact h
  | cons op rest ih =>
    intro s h
    exact ih (execStep s op) (execStep_shutdown_mono s op h)

/-- C7: `submit` returns refused exactly when the shutdown flag is set; once
the `shutdown()` flag-set has happened, every subsequent submit — under any
interleaving of further events — is refused; and while the flag is clear a
submit succeeds, returning the freshly allocated task id (never previously
allocated, given the allocation invariant) and inserting a Pending result for
it into the store. -/
theorem C7_submit_refusal (s : ExecState) :
    (submitResult s = none ↔ s.shutdown = true) ∧
    (∀ ops : List ExecOp,
      submitResult (execRun (execStep s .shutdownSignal) ops) = none) ∧
    (s.shutdown = false →
      submitResult s = some s.counter ∧
      (execStep s .submit).store s.counter = some ⟨.pending, .waiting⟩ ∧
      (ExecInv s → s.store s.counter = none)) := by
  refine ⟨?_, ?_, ?_⟩
  · unfold submitResult
    by_cases h : s.shutdown <;> simp [h]
  · intro ops
    have h : (execRun (execStep s .shutdownSignal) ops).shutdown = true :=
      execRun_shutdown_mono ops _ (by simp [execStep])
    simp [submitResult, h]
  · intro h
    refine ⟨by simp [submitResult, h], ?_, ?_⟩
    · simp [execStep, h, storeWrite]
    · intro hinv
      exact hinv.1 s.counter (le_refl _)

/-- C7 witness: from the initial state, a submit after shutdown is refused even
with further events interleaved, while a submit before shutdown returns task id
0 and stores a Pending result for it. -/
theorem C7_witness :
    submitResult (execRun (execStep execInit .shutdownSignal) [.submit, .startRun 0]) = none ∧
    submitResult execInit = some 0 ∧
    (execStep execInit .submit).store 0 = some ⟨.pending, .waiting⟩ := by
  refine ⟨(C7_submit_refusal execInit).2.1 [.submit, .startRun 0], ?_, ?_⟩
  · exact ((C7_submit_refusal execInit).2.2 rfl).1
  · exact ((C7_submit_refusal execInit).2.2 rfl).2.1

/-- C8: in any execution of the executor from its initial state, once a task's
stored result is observed in a terminal status (Completed, Failed or
Cancelled), no later sequence of events changes that entry: every subsequent
lookup of that task id returns the same result. -/
theorem C8_terminal_stability (ops0 : List ExecOp) (tid : Nat) (e : TaskEntry)
    (hobs : (execRun execInit ops0).store tid = some e)
    (hterm : e.status.isTerminal = true) (ops : List ExecOp) :
    (execRun (execRun execInit ops0) ops).store tid = some e :=
  execRun_stable ops _ (execRun_inv ops0 execInit execInit_inv) tid e hobs hterm

/-- C8 witness: task 0 is submitted, started and completed; after shutdown,
cancellation attempts and another submit, its stored result is still
Completed. -/
theorem C8_witness :
    (execRun (execRun execInit [.submit, .startRun 0, .complete 0])
        [.shutdownSignal, .cancelDuringRun 0, .fail 0, .submit]).store 0 =
      some ⟨.completed, .finished⟩ :=
  C8_terminal_stability [.submit, .startRun 0, .complete 0] 0 ⟨.completed, .finished⟩
    (by decide) (by decide) [.shutdownSignal, .cancelDuringRun 0, .fail 0, .submit]

/-! ## Checkout engine (core/checkout.rs, `CheckoutEngine::instant_checkout`)

The engine's HTTP interactions are abstracted by an environment giving the
outcome of each underlying single-attempt operation; the model returns the
checkout result together with the ordered list of checkout-protocol requests
issued, one per attempt. -/

/-- `Product` (core/checkout.rs lines 16-22).  The `f64` price is a rational
here; it does not influence the modelled control flow. -/
structure Product where
  id : String
  name : String
  url : String
  price : Option ℚ := none
  quantity : Nat := 1
deriving DecidableEq, Repr

/-- `Account` (core/checkout.rs lines 47-52), with the two `AccountSettings`
fields the checkout reads flattened in. -/
structure Account where
  id : String
  username : String
  paymentMethod : String
  shippingAddress : String
deriving DecidableEq, Repr

/-- The session fields `instant_checkout` reads (core/session.rs
lines 36-45). -/
structure Session where
  id : String
  isValid : Bool
deriving DecidableEq, Repr

/-- Kinds of checkout-protocol HTTP requests: add-to-cart, checkout-URL,
shipping, payment, challenge check and order submission. -/
inductive ReqKind where
  | cartAdd
  | checkoutUrl
  | shipping
  | payment
  | captchaCheck
  | submitOrder
deriving DecidableEq, Repr

/-- `CheckoutResult` (core/checkout.rs lines 99-105); the wall-clock timestamp
is not modelled. -/
structure CheckoutResult where
  success : Bool
  orderId : Option String
  error : Option String
  durationMs : Nat
deriving DecidableEq, Repr

/-- `CheckoutResult::failure` (core/checkout.rs lines 118-126). -/
def CheckoutResult.failure (err : String) (durationMs : Nat) : CheckoutResult :=
  ⟨false, none, some err, durationMs⟩

/-- `CheckoutResult::success` (core/checkout.rs lines 108-116). -/
def CheckoutResult.mkSuccess (orderId : String) (durationMs : Nat) : CheckoutResult :=
  ⟨true, some orderId, none, durationMs⟩

/-- Parsed challenge-detection response (core/checkout.rs lines 173-179). -/
structure CaptchaDetection where
  hasCaptcha : Bool
  captchaType : Option String
  siteKey : Option String
  pageUrl : Option String
deriving DecidableEq, Repr

/-- `CheckoutConfig` (core/checkout.rs lines 131-140).  The delay knobs are
carried for completeness; they parallel the retry model of the HTTP section
and do not affect which requests are issued. -/
structure CheckoutConfigM where
  addToCartRetries : Nat
  checkoutUrlRetries : Nat
  paymentRetries : Nat
  submissionRetries : Nat
  baseDelayMs : Nat
  maxDelayMs : Nat
  backoffMultiplier : ℚ
  captchaTimeoutSecs : Nat
deriving DecidableEq, Repr

/-- Environment of one checkout: the outcome of each underlying single-attempt
operation (each an HTTP request plus response parsing, collapsed to its
result), indexed by attempt number for the steps that retry. -/
structure CheckoutEnv where
  addToCart : Nat → Except String String
  getCheckoutUrl : Nat → Except String String
  fillShipping : Except String Unit
  selectPayment : Except String Unit
  captchaDetect : Except String CaptchaDetection
  solveRecaptcha : Except String String
  submitOrder : Nat → Except String String

/-- The per-step retry loop `for attempt in 0..retries` (core/checkout.rs
lines 331-356, 419-444 and 627-655): each attempt issues one request of the
step's kind; the first success returns, and exhaustion yields the step's
failure message. -/
def checkoutRetry {α : Type} (att : Nat → Except String α) (kind : ReqKind)
    (exhausted : String) : Nat → Nat → Except String α × List ReqKind
  | _, 0 => (.error exhausted, [])
  | attempt, n + 1 =>
    match att attempt with
    | .ok v => (.ok v, [kind])
    | .error _ =>
      let res := checkoutRetry att kind exhausted (attempt + 1) n
      (res.1, kind :: res.2)

/-- `detect_and_solve_captcha` (core/checkout.rs lines 556-616): one challenge
check request; on `has_captcha = false` no token, on `recaptcha_v2` with a site
key delegate to the solver, on `image` or an unknown type fail. -/
def detectAndSolveCaptcha (env : CheckoutEnv) : Except String (Option String) × List ReqKind :=
  match env.captchaDetect with
  | .error e => (.error e, [.captchaCheck])
  | .ok d =>
    if d.hasCaptcha = false then (.ok none, [.captchaCheck])
    else
      match d.captchaType with
      | some t =>
        if t = "recaptcha_v2" then
          match d.siteKey with
          | none => (.error "Site key not provided for reCAPTCHA", [.captchaCheck])
          | some _ =>
            match env.solveRecaptcha with
            | .ok token => (.ok (some token), [.captchaCheck])
            | .error e => (.error e, [.captchaCheck])
        else if t = "image" then
          (.error "Image captcha handling not fully implemented", [.captchaCheck])
        else (.error "Unknown captcha type", [.captchaCheck])
      | none => (.error "Unknown captcha type", [.captchaCheck])

/-- `CheckoutEngine::instant_checkout` (core/checkout.rs lines 223-325): the
preflight session check, then add-to-cart, checkout-URL, shipping, payment,
challenge and submission in order, each early return producing a failure
result.  Timer reads are abstracted by the `elapsed` parameter.  The product,
account and session-id fields are carried by the real request payloads but do
not influence the control flow, which is decided by the environment. -/
def instantCheckout (cfg : CheckoutConfigM) (env : CheckoutEnv) (product : Product)
    (account : Account) (session : Session) (elapsed : Nat) :
    CheckoutResult × List ReqKind :=
  if session.isValid = false then
    (CheckoutResult.failure "Session expired" elapsed, [])
  else
    let cart := checkoutRetry env.addToCart .cartAdd
      "Failed to add to cart after retries" 0 cfg.addToCartRetries
    match cart.1 with
    | .error e => (CheckoutResult.failure ("Add to cart failed: " ++ e) elapsed, cart.2)
    | .ok _cartId =>
      let urlRes := checkoutRetry env.getCheckoutUrl .checkoutUrl
        "Failed to get checkout URL after retries" 0 cfg.checkoutUrlRetries
      match urlRes.1 with
      | .error e =>
        (CheckoutResult.failure ("Get checkout URL failed: " ++ e) elapsed,
          cart.2 ++ urlRes.2)
      | .ok _checkoutUrl =>
        match env.fillShipping with
        | .error e =>
          (CheckoutResult.failure ("Shipping info failed: " ++ e) elapsed,
            cart.2 ++ urlRes.2 ++ [.shipping])
        | .ok _ =>
          match env.selectPayment with
          | .error e =>
            (CheckoutResult.failure ("Payment selection failed: " ++ e) elapsed,
              cart.2 ++ urlRes.2 ++ [.shipping, .payment])
          | .ok _ =>
            let cap := detectAndSolveCaptcha env
            match cap.1 with
            | .error e =>
              (CheckoutResult.failure ("Captcha handling failed: " ++ e) elapsed,
                cart.2 ++ urlRes.2 ++ [.shipping, .payment] ++ cap.2)
            | .ok _token =>
              let sub := checkoutRetry env.submitOrder .submitOrder
                "Failed to submit order after retries" 0 cfg.submissionRetries
              match sub.1 with
              | .error e =>
                (CheckoutResult.failure ("Order submission failed: " ++ e) elapsed,
                  cart.2 ++ urlRes.2 ++ [.shipping, .payment] ++ cap.2 ++ sub.2)
              | .ok orderId =>
                (CheckoutResult.mkSuccess orderId elapsed,
                  cart.2 ++ urlRes.2 ++ [.shipping, .payment] ++ cap.2 ++ sub.2)

/-- C9: for every configuration, environment, product and account, a checkout
with an invalid session returns immediately with a failed result whose error
text is "Session expired" and whose elapsed-ms field carries the timer value,
and it issues none of the checkout-protocol requests. -/
theorem C9_session_expired (cfg : CheckoutConfigM) (env : CheckoutEnv)
    (product : Product) (account : Account) (session : Session) (elapsed : Nat)
    (h : session.isValid = false) :
    instantCheckout cfg env product account session elapsed =
      (CheckoutResult.failure "Session expired" elapsed, []) := by
  simp [instantCheckout, h]

/-- C9 witness: a concrete invalid session against an all-success environment
still fails with "Session expired", elapsed-ms 42 and no requests. -/
theorem C9_witness :
    instantCheckout ⟨3, 2, 2, 3, 1000, 10000, 2, 120⟩
      ⟨fun _ => .ok "cart1", fun _ => .ok "url1", .ok (), .ok (),
        .ok ⟨false, none, none, none⟩, .ok "tok1", fun _ => .ok "order1"⟩
      ⟨"P1", "prod", "u", none, 1⟩ ⟨"A1", "user", "card", "addr"⟩
      ⟨"S1", false⟩ 42 =
      (CheckoutResult.failure "Session expired" 42, []) :=
  C9_session_expired ⟨3, 2, 2, 3, 1000, 10000, 2, 120⟩
    ⟨fun _ => .ok "cart1", fun _ => .ok "url1", .ok (), .ok (),
      .ok ⟨false, none, none, none⟩, .ok "tok1", fun _ => .ok "order1"⟩
    ⟨"P1", "prod", "u", none, 1⟩ ⟨"A1", "user", "card", "addr"⟩
    ⟨"S1", false⟩ 42 rfl

/-! ## Monitor event channels (core/monitor.rs) -/

/-- A monitor task as far as event delivery is concerned: its product id and
the channel its `event_sender` belongs to.  Unbounded mpsc channels are
identified in creation order; the allocator argument is the next fresh channel
id. -/
structure MonitorTaskM where
  productId : String
  eventSender : Nat
deriving DecidableEq, Repr

/-- `MonitorTask::new` (core/monitor.rs lines 56-91): create a channel, keep
its sender, drop its receiver. -/
def monitorTaskNew (productId : String) (chanAlloc : Nat) : MonitorTaskM × Nat :=
  (⟨productId, chanAlloc⟩, chanAlloc + 1)

/-- `MonitorTask::get_event_receiver` (core/monitor.rs lines 117-121): create a
fresh channel and return its receiver, dropping its sender; the task is not
modified.  Returns the receiver's channel id and the new allocator. -/
def getEventReceiver (task : MonitorTaskM) (chanAlloc : Nat) : Nat × Nat :=
  (chanAlloc, chanAlloc + 1)

/-- `MonitorEngine::add_monitor` (core/monitor.rs lines 290-306): create a
fresh channel, rebuild the task with its `event_sender` replaced by the new
sender, spawn the run loop, and return the paired receiver.  Returns the new
task, the receiver's channel id and the new allocator. -/
def addMonitor (monitor : MonitorTaskM) (chanAlloc : Nat) : MonitorTaskM × Nat × Nat :=
  ({ monitor with eventSender := chanAlloc }, chanAlloc, chanAlloc + 1)

/-- The sends of a task's run loop on availability observations `avail`: every
emitted event (the trace of `monitorEmit`) is sent on the task's
`event_sender` channel (core/monitor.rs line 160). -/
def runSends (task : MonitorTaskM) (avail : List Bool) : List (Nat × Bool) :=
  (monitorEmit none avail).map (fun a => (task.eventSender, a))

/-- The events a receiver yields: exactly the messages sent on its channel, in
order (the mpsc channel contract). -/
def delivered (sends : List (Nat × Bool)) (chan : Nat) : List Bool :=
  (sends.filter (fun m => m.1 == chan)).map (fun m => m.2)

theorem delivered_map_ne (l : List Bool) (c c' : Nat) (h : ¬ c = c') :
    delivered (l.map (fun a => (c, a))) c' = [] := by
  induction l with
  | nil => rfl
  | cons a rest ih =>
    unfold delivered at *
    simp only [List.map_cons, List.filter_cons]
    simp [h, ih]

theorem delivered_map_self (l : List Bool) (c : Nat) :
    delivered (l.map (fun a => (c, a))) c = l := by
  induction l with
  | nil => rfl
  | cons a rest ih =>
    unfold delivered at *
    simp only [List.map_cons, List.filter_cons]
    simp [ih]

/-- C10: for a task whose sender channel predates the allocator (as holds for
any constructed task), the receiver returned by `get_event_receiver` belongs to
a freshly created channel distinct from the channel of the task's
`event_sender` and therefore yields none of the events the run loop emits;
whereas `add_monitor` returns the receiver paired with the sender it installs
into the task, which yields every emitted event. -/
theorem C10_event_receiver (task : MonitorTaskM) (chanAlloc : Nat) (avail : List Bool)
    (hfresh : task.eventSender < chanAlloc) :
    ((getEventReceiver task chanAlloc).1 ≠ task.eventSender ∧
      delivered (runSends task avail) (getEventReceiver task chanAlloc).1 = []) ∧
    ((addMonitor task chanAlloc).2.1 = ((addMonitor task chanAlloc).1).eventSender ∧
      delivered (runSends (addMonitor task chanAlloc).1 avail)
        ((addMonitor task chanAlloc).2.1) = monitorEmit none avail) := by
  refine ⟨⟨?_, ?_⟩, rfl, ?_⟩
  · simp only [getEventReceiver]
    omega
  · simp only [getEventReceiver, runSends]
    exact delivered_map_ne _ _ _ (by omega)
  · simp only [addMonitor, runSends]
    exact delivered_map_self _ _

/-- C10 witness: for a freshly created task (sender channel 0, allocator 1) and
the availability trace [true, false], the `get_event_receiver` receiver is on a
different channel and yields nothing. -/
theorem C10_witness :
    (getEventReceiver (monitorTaskNew "p1" 0).1 (monitorTaskNew "p1" 0).2).1 ≠
      (monitorTaskNew "p1" 0).1.eventSender ∧
    delivered (runSends (monitorTaskNew "p1" 0).1 [true, false])
      (getEventReceiver (monitorTaskNew "p1" 0).1 (monitorTaskNew "p1" 0).2).1 = [] :=
  (C10_event_receiver (monitorTaskNew "p1" 0).1 (monitorTaskNew "p1" 0).2 [true, false]
    (by decide)).1

end Lazabot
